import Mathlib

/-!
Verification of the ai-chat-hub core: a shallow embedding of the RAG
retrieval pipeline (src/lib/llm.ts), the webhook ingestion pipeline
(src/app/api/chatra-webhook/route.ts) and the approval workflow
(src/lib/actions.ts), with theorems checking the specification claims.

Modelling conventions:
- Machine state (the Postgres tables behind Prisma) is an explicit `DB`
  value threaded through each operation.
- External calls (text embedding, LLM generation, the Chatra REST API)
  are oracles passed as function arguments; a fallible call is an
  `Except`-valued oracle, and a JS `try/catch` becomes a `match` on it.
- JS string truthiness (`s || t`) is modelled by `jstr`, which maps the
  empty string and `undefined`/`null` to `none`.
- Timestamps are `Nat`; internal row ids are `Nat` allocated from a
  `nextId` counter; external (Chatra) ids are `String`.
- A thrown JS exception that escapes a function is an `Except.error`
  result; database writes performed before the throw persist, so
  stateful operations return the post-run `DB` alongside the result.
-/

namespace AiChatHub

/-- JS string truthiness: `undefined`, `null` and `""` are falsy. -/
def jstr (s : Option String) : Option String :=
  match s with
  | none => none
  | some v => if v = "" then none else some v

/-- `a || b` on JS optional strings. -/
def jsOr (a b : Option String) : Option String :=
  match jstr a with
  | some v => some v
  | none => jstr b

/-- Stable ascending sort on a `Nat`-valued key (models `ORDER BY key ASC`
and Prisma `orderBy: { field: 'asc' }`; ties keep input order). -/
def sortOnKey {α : Type} (key : α → Nat) (l : List α) : List α :=
  @List.insertionSort α (fun a b => key a ≤ key b) (fun a b => Nat.decLe (key a) (key b)) l

/-- Stable descending sort on a `Nat`-valued key (models
`orderBy: { field: 'desc' }`). -/
def sortDescOnKey {α : Type} (key : α → Nat) (l : List α) : List α :=
  @List.insertionSort α (fun a b => key b ≤ key a) (fun a b => Nat.decLe (key b) (key a)) l

/-- Stable ascending sort on a rational key (models `ORDER BY dist ASC`
in the raw similarity query). -/
def sortOnRatKey {α : Type} (key : α → ℚ) (l : List α) : List α :=
  @List.insertionSort α (fun a b => key a ≤ key b) (fun a b => Rat.instDecidableLe (key a) (key b)) l

/-! ## Data model (prisma schema as used by the core) -/

/-- A row of the `chatraAccount` table. -/
structure ChatraAccount where
  id : Nat
  name : String
  chatraId : String
  apiKey : String
  webhookSecret : String
  isActive : Bool
deriving Repr, DecidableEq

/-- A row of the `conversation` table. -/
structure Conversation where
  id : Nat
  chatraConversationId : String
  chatraAccountId : Nat
  clientName : Option String
  clientEmail : Option String
  status : String
  lastMessageAt : Option Nat
  createdAt : Nat
  updatedAt : Nat
deriving Repr, DecidableEq

/-- A row of the `message` table. -/
structure Message where
  id : Nat
  conversationId : Nat
  chatraMessageId : Option String
  content : String
  senderType : String
  senderName : Option String
  messageType : String
  retrievedContext : Option String
  confidence : Option ℚ
  isApproved : Option Bool
  createdAt : Nat
  updatedAt : Nat
deriving Repr, DecidableEq

/-- The metadata JSON written by the knowledge-extraction step of
`approveMessage`. -/
structure KnowledgeMetadata where
  conversationId : Option Nat
  clientMessageId : Option Nat
  approvedMessageId : Option Nat
  clientName : Option String
  clientEmail : Option String
  approvedAt : Option Nat
deriving Repr, DecidableEq

/-- A row of the `knowledgeBase` table. The embedding is stored as a
pgvector text literal (`'[x1,...,xn]'`), nullable at the SQL level. -/
structure KnowledgeEntry where
  id : Nat
  content : String
  source : String
  sourceId : Option Nat
  metadata : Option KnowledgeMetadata
  embedding : Option String
  createdAt : Nat
  updatedAt : Nat
deriving Repr, DecidableEq

/-- The persistent store. -/
structure DB where
  nextId : Nat
  accounts : List ChatraAccount
  conversations : List Conversation
  messages : List Message
  knowledgeBase : List KnowledgeEntry
deriving Repr, DecidableEq

/-- `RetrievedContext` from src/types/index.ts. -/
structure RetrievedContext where
  content : String
  source : String
  sourceId : Option Nat
  similarity : Option ℚ
  metadata : Option KnowledgeMetadata
deriving Repr, DecidableEq

/-- `LLMResponse` from src/types/index.ts. -/
structure LLMResponse where
  content : String
  confidence : Option ℚ
  retrievedContext : Option (List RetrievedContext)
deriving Repr, DecidableEq

/-! ## Retriever (`retrieveContext` in src/lib/llm.ts) -/

/-- The pgvector text literal built from an embedding
(`"[" + embedding.join(",") + "]"`). -/
def embeddingToString (v : List ℚ) : String :=
  "[" ++ String.intercalate "," (v.map toString) ++ "]"

/-- Environment of the retrieval path: the embedding provider call, the
knowledge table read (an `Except` so that an unreachable store is a
caught error), and the pgvector cosine-distance operator `<=>` between
two embedding text literals. -/
structure RagEnv where
  embed : String → Except String (List ℚ)
  store : Except String (List KnowledgeEntry)
  dist : String → String → ℚ

/-- The `WHERE` clause of the raw similarity query:
`embedding IS NOT NULL AND embedding != '' AND
 1 - (embedding <=> q) > threshold`. -/
def keepRow (dist : String → String → ℚ) (qe : String) (threshold : ℚ)
    (r : KnowledgeEntry) : Bool :=
  match r.embedding with
  | none => false
  | some e => if e = "" then false else decide (threshold < 1 - dist e qe)

/-- The raw SQL query of `retrieveContext`: filter by the similarity
threshold, `ORDER BY embedding <=> q` ascending, `LIMIT k`. -/
def ragQuery (kb : List KnowledgeEntry) (dist : String → String → ℚ)
    (qe : String) (threshold : ℚ) (limit : Nat) : List KnowledgeEntry :=
  (sortOnRatKey (fun r => dist (r.embedding.getD "") qe)
      (kb.filter (keepRow dist qe threshold))).take limit

/-- `retrieveContext(query, limit, similarityThreshold)`: embed the query,
run the similarity query, map rows to `RetrievedContext`; any error
(embedding call or store) is caught and yields `[]`. -/
def retrieveContext (env : RagEnv) (query : String) (limit : Nat)
    (similarityThreshold : ℚ) : List RetrievedContext :=
  match env.embed query with
  | .error _ => []
  | .ok qv =>
    let embeddingString := embeddingToString qv
    match env.store with
    | .error _ => []
    | .ok kb =>
      (ragQuery kb env.dist embeddingString similarityThreshold limit).map
        (fun r => { content := r.content, source := r.source,
                    sourceId := r.sourceId,
                    similarity := some (1 - env.dist (r.embedding.getD "") embeddingString),
                    metadata := r.metadata })

/-- `retrieveContext(query)` with the source defaults
`limit = 5`, `similarityThreshold = 0.7`. -/
def retrieveContextDefault (env : RagEnv) (query : String) : List RetrievedContext :=
  retrieveContext env query 5 (7/10)

/-! ## Prompt composer (`constructPrompt` in src/lib/llm.ts) -/

/-- JS `Number.prototype.toFixed(2)` on a rational: round to two decimal
places, half away from zero. -/
def toFixed2 (q : ℚ) : String :=
  let n : Int := if 0 ≤ q then ⌊q * 100 + 1/2⌋ else -⌊-(q * 100) + 1/2⌋
  let a := n.natAbs
  (if n < 0 then "-" else "") ++ toString (a / 100) ++ "." ++
    (if a % 100 < 10 then "0" else "") ++ toString (a % 100)

/-- `(context.similarity || 0)`. -/
def simOrZero (s : Option ℚ) : ℚ :=
  match s with
  | none => 0
  | some v => v

def promptPreamble : String :=
  "You are a helpful customer service assistant. You should provide accurate, professional, and empathetic responses to customer inquiries.\n\nCONTEXT FROM PREVIOUS CONVERSATIONS:\n"

def noContextSentinel : String :=
  "\nNo relevant context found in knowledge base. Provide a helpful general response.\n"

def historyHeader : String := "\nCONVERSATION HISTORY:\n"

def startSentinel : String := "This is the start of the conversation.\n"

def currentMessageHeader : String := "\nCURRENT USER MESSAGE:\n"

def closingInstructions : String :=
  "\n\nINSTRUCTIONS:\n- Use the context from previous conversations to inform your response when relevant\n- Maintain a professional and empathetic tone\n- If you don\x27t have enough information to answer accurately, ask clarifying questions\n- Keep responses concise but complete\n- If the context provides specific information relevant to the user\x27s query, reference it appropriately\n\nPlease provide a helpful response to the user\x27s message:"

/-- One rendered entry of the retrieved-context block. -/
def contextEntryBlock (i : Nat) (c : RetrievedContext) : String :=
  "\n[Context " ++ toString (i + 1) ++ "] (Source: " ++ c.source ++
    ", Similarity: " ++ toFixed2 (simOrZero c.similarity) ++ ")\n" ++ c.content ++ "\n"

/-- One rendered line of the conversation-history block. -/
def historyEntryLine (i : Nat) (m : String) : String :=
  toString (i + 1) ++ ". " ++ m ++ "\n"

/-- `constructPrompt(userMessage, conversationHistory, retrievedContext)`:
a pure function assembling the generation prompt. -/
def constructPrompt (userMessage : String) (conversationHistory : List String)
    (retrievedContext : List RetrievedContext) : String :=
  let contextBlock :=
    if retrievedContext.length > 0 then
      String.join (retrievedContext.enum.map (fun p => contextEntryBlock p.1 p.2))
    else noContextSentinel
  let historyBlock :=
    if conversationHistory.length > 0 then
      String.join (conversationHistory.enum.map (fun p => historyEntryLine p.1 p.2))
    else startSentinel
  promptPreamble ++ contextBlock ++ historyHeader ++ historyBlock ++
    currentMessageHeader ++ userMessage ++ closingInstructions

/-- `formatConversationHistory(messages)`: last 10 messages, each prefixed
by its speaker role. -/
def formatConversationHistory (messages : List Message) : List String :=
  (messages.drop (messages.length - 10)).map
    (fun msg =>
      (if msg.senderType = "client" then "Customer"
       else if msg.senderType = "agent" then "Agent"
       else "Assistant") ++ ": " ++ msg.content)

/-! ## Reply generator (`generateLLMResponse`, `generatePlaceholderResponse`) -/

/-- JS `String.prototype.trim()`: drop leading and trailing whitespace
(structurally recursive, on the underlying character list). -/
def jsTrim (s : String) : String :=
  ⟨((s.data.dropWhile Char.isWhitespace).reverse.dropWhile Char.isWhitespace).reverse⟩

/-- `generateLLMResponse(userMessage, conversationHistory, useRAG)` with
the generation model call as an `Except`-valued oracle `gen`. A failed
generation call propagates (outer catch rethrows). The source defaults
are `conversationHistory = []`, `useRAG = true`. -/
def generateLLMResponse (env : RagEnv) (gen : String → Except String String)
    (userMessage : String) (conversationHistory : List String)
    (useRAG : Bool) : Except String LLMResponse :=
  let retrieved := if useRAG then retrieveContextDefault env userMessage else []
  let prompt := constructPrompt userMessage conversationHistory retrieved
  match gen prompt with
  | .error e => .error e
  | .ok content =>
    .ok { content := jsTrim content, confidence := some (4/5),
          retrievedContext := if retrieved.length > 0 then some retrieved else none }

/-- The prompt template of `generatePlaceholderResponse` (whitespace as in
the source template literal). -/
def placeholderPrompt (userMessage : String) : String :=
  "You are a customer service assistant. The user said: \"" ++ userMessage ++
    "\". \n  \n  Since this is a demo system and the knowledge base is not yet populated with historical conversations, \n  please provide a helpful, professional response that acknowledges this is a demonstration system.\n  \n  Keep the response concise and helpful."

/-- The canned content returned when the placeholder generation call
itself fails. -/
def placeholderFallbackContent : String :=
  "Thank you for your message. I\x27m here to help you. Could you please provide more details about what you need assistance with?"

/-- `generatePlaceholderResponse(userMessage)`: never throws; confidence
0.6 on success, 0.5 on the internal fallback. -/
def generatePlaceholderResponse (gen : String → Except String String)
    (userMessage : String) : LLMResponse :=
  match gen (placeholderPrompt userMessage) with
  | .ok content =>
    { content := jsTrim content, confidence := some (3/5), retrievedContext := some [] }
  | .error _ =>
    { content := placeholderFallbackContent, confidence := some (1/2),
      retrievedContext := some [] }

/-! ## Webhook ingestion pipeline (src/app/api/chatra-webhook/route.ts) -/

/-- The `client` object of the real Chatra webhook payload. -/
structure PayloadClient where
  chatId : Option String
  name : Option String
  displayedName : Option String
  email : Option String
deriving Repr, DecidableEq

/-- One message of the webhook payload. `type` is `client`, `agent` or
`system`; `createdAt`/`timestamp` are optional provider timestamps. -/
structure PayloadMessage where
  id : String
  text : Option String
  message : Option String
  type : String
  createdAt : Option Nat
  timestamp : Option Nat
deriving Repr, DecidableEq

/-- The real (flat) Chatra webhook payload shape handled by the route. -/
structure WebhookPayload where
  client : Option PayloadClient
  messages : Option (List PayloadMessage)
deriving Repr, DecidableEq

/-- `processRealChatraWebhook(payload, chatraAccountId)`: upsert of the
conversation keyed by the external conversation id `client.chatId`.
The update and the create both write `clientName`, `clientEmail` and
`status: 'active'`; the create additionally sets `createdAt`. -/
def processRealChatraWebhook (db : DB) (payload : WebhookPayload)
    (chatraAccountId : Nat) (now : Nat) : DB :=
  match payload.client with
  | none => db
  | some client =>
    match jstr client.chatId with
    | none => db
    | some chatId =>
      let clientName := (jsOr client.name client.displayedName).getD "Anonymous"
      let clientEmail := jstr client.email
      if db.conversations.any (fun c => c.chatraConversationId == chatId) then
        { db with conversations := db.conversations.map (fun c =>
            if c.chatraConversationId == chatId then
              { c with chatraConversationId := chatId,
                       chatraAccountId := chatraAccountId,
                       clientName := some clientName,
                       clientEmail := clientEmail,
                       status := "active",
                       updatedAt := now }
            else c) }
      else
        { db with nextId := db.nextId + 1,
                  conversations := db.conversations ++
                    [{ id := db.nextId,
                       chatraConversationId := chatId,
                       chatraAccountId := chatraAccountId,
                       clientName := some clientName,
                       clientEmail := clientEmail,
                       status := "active",
                       lastMessageAt := none,
                       createdAt := now,
                       updatedAt := now }] }

/-- Serialization of the retrieved-context snapshot stored on an llm
message (models `JSON.stringify(llmResponse.retrievedContext)`). -/
def serializeContext (l : List RetrievedContext) : String :=
  "[" ++ String.intercalate ","
    (l.map (fun c =>
      "\x7b\"content\":\"" ++ c.content ++ "\",\"source\":\"" ++ c.source ++
        "\",\"similarity\":" ++ toString (simOrZero c.similarity) ++ "\x7d")) ++ "]"

/-- The per-message loop body of `handleRealChatraMessages`: skip a
payload message whose external id already exists, otherwise insert it
and, for a client message with non-empty text, attempt an LLM draft
(`llm` oracle; a `.error` is the caught generation failure, which the
route logs and continues past). The `hist` argument is the snapshot
`conversation.messages` (fetched once, newest first); the JS
`conversation.messages.reverse()` mutates the snapshot in place, so the
reversal state is threaded through the recursion. -/
def processMessages (llm : String → List String → Except String LLMResponse)
    (now : Nat) (conv : Conversation) :
    DB → List Message → List PayloadMessage → DB
  | db, _, [] => db
  | db, hist, m :: rest =>
    if db.messages.any (fun x => x.chatraMessageId == some m.id) then
      processMessages llm now conv db hist rest
    else
      let newMsg : Message :=
        { id := db.nextId,
          conversationId := conv.id,
          chatraMessageId := some m.id,
          content := (jsOr m.text m.message).getD "",
          senderType := if m.type == "agent" then "agent" else "client",
          senderName := if m.type == "agent" then some "Agent" else conv.clientName,
          messageType := "text",
          retrievedContext := none,
          confidence := none,
          isApproved := none,
          createdAt := (m.createdAt.orElse (fun _ => m.timestamp)).getD now,
          updatedAt := now }
      let db1 := { db with nextId := db.nextId + 1, messages := db.messages ++ [newMsg] }
      if m.type == "client" && (jstr m.text).isSome then
        let hist2 := hist.reverse
        match llm ((jstr m.text).getD "") (formatConversationHistory hist2) with
        | .ok resp =>
          let llmMsg : Message :=
            { id := db1.nextId,
              conversationId := conv.id,
              chatraMessageId := none,
              content := resp.content,
              senderType := "llm",
              senderName := some "AI Assistant",
              messageType := "text",
              retrievedContext := resp.retrievedContext.map serializeContext,
              confidence := resp.confidence,
              isApproved := none,
              createdAt := now,
              updatedAt := now }
          processMessages llm now conv
            { db1 with nextId := db1.nextId + 1, messages := db1.messages ++ [llmMsg] }
            hist2 rest
        | .error _ => processMessages llm now conv db1 hist2 rest
      else
        processMessages llm now conv db1 hist rest

/-- `handleRealChatraMessages(payload, chatraAccountId)`: find the
conversation by external id (with its last 10 messages, newest first, as
LLM context), process each payload message, then update the
conversation's `lastMessageAt` to the last payload message's timestamp. -/
def handleRealChatraMessages (llm : String → List String → Except String LLMResponse)
    (db : DB) (payload : WebhookPayload) (now : Nat) : DB :=
  match payload.client with
  | none => db
  | some client =>
    match jstr client.chatId, payload.messages with
    | some chatId, some msgs =>
      match db.conversations.find? (fun c => c.chatraConversationId == chatId) with
      | none => db
      | some conv =>
        let hist := (sortDescOnKey (fun m : Message => m.createdAt)
          (db.messages.filter (fun m => m.conversationId == conv.id))).take 10
        let db2 := processMessages llm now conv db hist msgs
        if msgs.length > 0 then
          match msgs.getLast? with
          | some lastMessage =>
            let ts := (lastMessage.createdAt.orElse (fun _ => lastMessage.timestamp)).getD now
            { db2 with conversations := db2.conversations.map (fun c =>
                if c.id == conv.id then
                  { c with lastMessageAt := some ts, updatedAt := now }
                else c) }
          | none => db2
        else db2
    | _, _ => db

/-- The webhook `POST` flow after validation and account lookup:
`processRealChatraWebhook`, then `handleRealChatraMessages` when the
payload carries a non-empty message list. -/
def ingestWebhook (llm : String → List String → Except String LLMResponse)
    (db : DB) (payload : WebhookPayload) (chatraAccountId : Nat) (now : Nat) : DB :=
  let db1 := processRealChatraWebhook db payload chatraAccountId now
  match payload.messages with
  | some msgs =>
    if msgs.length > 0 then handleRealChatraMessages llm db1 payload now else db1
  | none => db1

/-! ## Approval workflow (src/lib/actions.ts) -/

/-- The NextAuth session as used by the actions. -/
structure Session where
  name : Option String
  email : Option String
deriving Repr, DecidableEq

/-- The value returned to the caller of `approveMessage` /
`rejectMessage` on success: `{ success: true, message }`. -/
structure ActionReturn where
  success : Bool
  message : Message
deriving Repr, DecidableEq

/-- The errors an action can throw. -/
inductive ActionError where
  | unauthorized
  | recordNotFound
  | embeddingFailed (e : String)
deriving Repr, DecidableEq

/-- One invocation of the outbound delivery adapter
`sendMessageToChatra(accountId, conversationId, message)` together with
its boolean outcome (the adapter catches internally and never throws). -/
structure SendCall where
  accountId : Nat
  conversationId : String
  text : String
  senderName : String
  result : Bool
deriving Repr, DecidableEq

/-- The `db.message.update({ where: { id }, data: { isApproved: true } })`
step: the updated message and the post-write store, or `none` when the
id does not exist (Prisma throws, rethrown by the action). -/
def approvalUpdate (db : DB) (messageId : Nat) (now : Nat) : Option (Message × DB) :=
  match db.messages.find? (fun m => m.id == messageId) with
  | none => none
  | some m0 =>
    let msg : Message := { m0 with isApproved := some true, updatedAt := now }
    some (msg, { db with messages := db.messages.map (fun m =>
      if m.id == messageId then msg else m) })

/-- The backward search for the preceding client message: the included
`conversation.messages` are the first ten of the conversation ordered by
`createdAt` ascending (`orderBy: asc, take: 10`), reversed, and scanned
for the first `client` message strictly older than the approved one. -/
def precedingClientInWindow (db : DB) (conv : Conversation) (target : Message) :
    Option Message :=
  ((sortOnKey (fun m : Message => m.createdAt)
      (db.messages.filter (fun m => m.conversationId == conv.id))).take 10).reverse.find?
    (fun m => m.senderType == "client" && decide (m.createdAt < target.createdAt))

/-- The knowledge row inserted by the extraction step of
`approveMessage` for approved message `msg` with preceding client
message `cm`. -/
def extractionEntry (db1 : DB) (conv : Conversation) (msg cm : Message)
    (vec : List ℚ) (now : Nat) : KnowledgeEntry :=
  { id := db1.nextId,
    content := "Q: " ++ cm.content ++ "\nA: " ++ msg.content,
    source := "approved_response",
    sourceId := some msg.conversationId,
    metadata := some
      { conversationId := some msg.conversationId,
        clientMessageId := some cm.id,
        approvedMessageId := some msg.id,
        clientName := conv.clientName,
        clientEmail := conv.clientEmail,
        approvedAt := some now },
    embedding := some (embeddingToString vec),
    createdAt := now,
    updatedAt := now }

/-- `approveMessage(messageId, extractToKnowledge)` (source default
`extractToKnowledge = true`): set `isApproved`, deliver to Chatra when
the message is an llm message of a conversation with a Chatra account
(failure logged, not propagated), then optionally extract a Q/A pair to
the knowledge base with duplicate suppression on (content, sourceId).
Returns the post-run store, the delivery-adapter invocations made, and
the caller-visible result. -/
def approveMessage (send : Nat → String → String → String → Bool)
    (embed : String → Except String (List ℚ)) (now : Nat)
    (session : Option Session) (db : DB) (messageId : Nat)
    (extractToKnowledge : Bool) :
    DB × List SendCall × Except ActionError ActionReturn :=
  match session with
  | none => (db, [], .error .unauthorized)
  | some sess =>
    match approvalUpdate db messageId now with
    | none => (db, [], .error .recordNotFound)
    | some (msg, db1) =>
      match db1.conversations.find? (fun c => c.id == msg.conversationId) with
      | none => (db1, [], .error .recordNotFound)
      | some conv =>
        let account? := db1.accounts.find? (fun a => a.id == conv.chatraAccountId)
        let calls : List SendCall :=
          match account? with
          | some acct =>
            if msg.senderType == "llm" then
              let senderName := sess.name.getD "AI Assistant"
              [{ accountId := acct.id,
                 conversationId := conv.chatraConversationId,
                 text := msg.content,
                 senderName := senderName,
                 result := send acct.id conv.chatraConversationId msg.content senderName }]
            else []
          | none => []
        if extractToKnowledge && msg.senderType == "llm" then
          match precedingClientInWindow db1 conv msg with
          | some clientMsg =>
            let qaPair := "Q: " ++ clientMsg.content ++ "\nA: " ++ msg.content
            match db1.knowledgeBase.find?
                (fun e => e.content == qaPair && e.sourceId == some msg.conversationId) with
            | some _ => (db1, calls, .ok { success := true, message := msg })
            | none =>
              match embed qaPair with
              | .error e => (db1, calls, .error (.embeddingFailed e))
              | .ok vec =>
                ({ db1 with nextId := db1.nextId + 1,
                            knowledgeBase := db1.knowledgeBase ++
                              [extractionEntry db1 conv msg clientMsg vec now] },
                 calls, .ok { success := true, message := msg })
          | none => (db1, calls, .ok { success := true, message := msg })
        else (db1, calls, .ok { success := true, message := msg })

/-- `rejectMessage(messageId)`: set `isApproved: false`; no delivery, no
extraction. -/
def rejectMessage (now : Nat) (session : Option Session) (db : DB)
    (messageId : Nat) : DB × Except ActionError ActionReturn :=
  match session with
  | none => (db, .error .unauthorized)
  | some _ =>
    match db.messages.find? (fun m => m.id == messageId) with
    | none => (db, .error .recordNotFound)
    | some m0 =>
      let msg : Message := { m0 with isApproved := some false, updatedAt := now }
      ({ db with messages := db.messages.map (fun m =>
          if m.id == messageId then msg else m) },
       .ok { success := true, message := msg })

/-! ## Observation helpers and the spec-side search definition -/

/-- Number of conversation rows carrying a given external conversation id. -/
def convCount (db : DB) (cid : String) : Nat :=
  (db.conversations.filter (fun c => c.chatraConversationId == cid)).length

/-- Number of message rows carrying a given external message id. -/
def msgCount (db : DB) (mid : String) : Nat :=
  (db.messages.filter (fun m => m.chatraMessageId == some mid)).length

/-- Number of knowledge entries with a given (content, sourceId) pair. -/
def kbCount (db : DB) (content : String) (sourceId : Option Nat) : Nat :=
  (db.knowledgeBase.filter (fun e => e.content == content && e.sourceId == sourceId)).length

/-- Spec-side definition (from the claim's words, for comparison with the
code): the nearest preceding `client` message in the whole conversation,
searching backward from the target by timestamp. -/
def specPrecedingClientMessage (msgs : List Message) (target : Message) :
    Option Message :=
  (msgs.filter (fun m => m.senderType == "client" && decide (m.createdAt < target.createdAt))).foldl
    (fun acc m =>
      match acc with
      | none => some m
      | some b => if b.createdAt < m.createdAt then some m else some b)
    none

/-! ## Generic list lemmas -/

theorem count_pos_iff_any {α : Type} (p : α → Bool) (l : List α) :
    0 < (l.filter p).length ↔ l.any p = true := by
  simp [List.length_pos_iff_exists_mem, List.mem_filter, List.any_eq_true]

theorem count_zero_find?_none {α : Type} (p : α → Bool) (l : List α)
    (h : (l.filter p).length = 0) : l.find? p = none := by
  rw [List.length_eq_zero, List.filter_eq_nil_iff] at h
  exact List.find?_eq_none.mpr h

theorem count_pos_find?_isSome {α : Type} (p : α → Bool) (l : List α)
    (h : 0 < (l.filter p).length) : (l.find? p).isSome = true := by
  rw [List.length_pos_iff_exists_mem] at h
  obtain ⟨a, ha⟩ := h
  rw [List.mem_filter] at ha
  exact List.find?_isSome.mpr ⟨a, ha.1, ha.2⟩

theorem find?_replace {α : Type} (p : α → Bool) (y : α) (hy : p y = true) :
    ∀ l : List α, (l.find? p).isSome = true →
      (l.map (fun x => if p x then y else x)).find? p = some y := by
  intro l
  induction l with
  | nil => intro h; simp at h
  | cons x xs ih =>
    intro h
    by_cases hx : p x = true
    · simp only [List.map_cons, if_pos hx]
      exact List.find?_cons_of_pos _ hy
    · rw [List.find?_cons_of_neg _ hx] at h
      simp only [List.map_cons, if_neg hx]
      rw [List.find?_cons_of_neg _ hx]
      exact ih h

theorem filter_length_map_eq {α : Type} (f : α → α) (p : α → Bool)
    (h : ∀ x, p (f x) = p x) (l : List α) :
    ((l.map f).filter p).length = (l.filter p).length := by
  induction l with
  | nil => rfl
  | cons x xs ih =>
    by_cases hx : p x = true
    · simp [List.filter_cons, h x, hx, ih]
    · rw [Bool.not_eq_true] at hx
      simp [List.filter_cons, h x, hx, ih]

theorem filter_length_append_single {α : Type} (p : α → Bool) (l : List α) (x : α) :
    ((l ++ [x]).filter p).length = (l.filter p).length + (if p x then 1 else 0) := by
  rw [List.filter_append]
  by_cases hx : p x = true
  · simp [List.filter_cons, hx]
  · rw [Bool.not_eq_true] at hx
    simp [List.filter_cons, hx]

theorem keepRow_none {dist : String → String → ℚ} {qe : String} {θ : ℚ}
    (r : KnowledgeEntry) (he : r.embedding = none) :
    keepRow dist qe θ r = false := by
  unfold keepRow; rw [he]

theorem keepRow_some {dist : String → String → ℚ} {qe : String} {θ : ℚ}
    (r : KnowledgeEntry) (e : String) (he : r.embedding = some e) :
    keepRow dist qe θ r = (if e = "" then false else decide (θ < 1 - dist e qe)) := by
  unfold keepRow; rw [he]

theorem mem_sortOnRatKey {α : Type} (key : α → ℚ) (l : List α) (a : α) :
    a ∈ sortOnRatKey key l ↔ a ∈ l :=
  (List.perm_insertionSort _ l).mem_iff

theorem sortOnRatKey_sorted {α : Type} (key : α → ℚ) (l : List α) :
    List.Sorted (fun a b => key a ≤ key b) (sortOnRatKey key l) :=
  @List.sorted_insertionSort α (fun a b => key a ≤ key b)
    (fun a b => Rat.instDecidableLe (key a) (key b))
    ⟨fun a b => le_total (key a) (key b)⟩
    ⟨fun _ _ _ hab hbc => le_trans hab hbc⟩ l

/-! ## Claim C4 -/

/-- Claim C4: for every query, `k` and threshold, retrieval returns only
knowledge entries whose similarity (1 minus cosine distance to the query
embedding) is strictly greater than the threshold, ordered descending by
similarity, truncated to at most `k` entries; the defaults are `k = 5`
and `threshold = 0.7`. -/
theorem C4_retrieval_threshold_order_limit
    (env : RagEnv) (q : String) (k : Nat) (θ : ℚ)
    (qv : List ℚ) (kb : List KnowledgeEntry)
    (hembed : env.embed q = .ok qv) (hstore : env.store = .ok kb) :
    (∀ c ∈ retrieveContext env q k θ, ∃ s, c.similarity = some s ∧ θ < s)
  ∧ List.Sorted (fun a b : ℚ => b ≤ a)
      ((retrieveContext env q k θ).map (fun c => c.similarity.getD 0))
  ∧ (retrieveContext env q k θ).length ≤ k
  ∧ retrieveContextDefault env q = retrieveContext env q 5 (7/10) := by
  have hres : retrieveContext env q k θ =
      (ragQuery kb env.dist (embeddingToString qv) θ k).map
        (fun r => { content := r.content, source := r.source,
                    sourceId := r.sourceId,
                    similarity := some (1 - env.dist (r.embedding.getD "") (embeddingToString qv)),
                    metadata := r.metadata }) := by
    simp [retrieveContext, hembed, hstore]
  refine ⟨?_, ?_, ?_, rfl⟩
  · intro c hc
    rw [hres] at hc
    obtain ⟨r, hr, rfl⟩ := List.mem_map.mp hc
    have hmem : r ∈ kb.filter (keepRow env.dist (embeddingToString qv) θ) := by
      have hsub := List.Sublist.subset (List.take_sublist k
        (sortOnRatKey (fun r => env.dist (r.embedding.getD "") (embeddingToString qv))
          (kb.filter (keepRow env.dist (embeddingToString qv) θ)))) hr
      exact (mem_sortOnRatKey _ _ _).mp hsub
    have hkeep := (List.mem_filter.mp hmem).2
    cases he : r.embedding with
    | none =>
      rw [keepRow_none r he] at hkeep
      exact absurd hkeep (by simp)
    | some e =>
      rw [keepRow_some r e he] at hkeep
      by_cases he0 : e = ""
      · rw [if_pos he0] at hkeep
        exact absurd hkeep (by simp)
      · rw [if_neg he0] at hkeep
        refine ⟨_, rfl, ?_⟩
        simp only [Option.getD_some]
        exact of_decide_eq_true hkeep
  · rw [hres, List.map_map]
    have hs := sortOnRatKey_sorted
      (fun r : KnowledgeEntry => env.dist (r.embedding.getD "") (embeddingToString qv))
      (kb.filter (keepRow env.dist (embeddingToString qv) θ))
    have htake := List.Pairwise.sublist (List.take_sublist k _) hs
    unfold ragQuery
    refine List.Pairwise.map _ ?_ htake
    intro a b hab
    simp only [Function.comp]
    have : (1 : ℚ) - env.dist (b.embedding.getD "") (embeddingToString qv) ≤
        1 - env.dist (a.embedding.getD "") (embeddingToString qv) := by linarith
    simpa using this
  · rw [hres, List.length_map]
    exact le_trans (List.length_take_le k _) (le_refl k)

/-- Concrete store and environment used by the retrieval witnesses. -/
def kbEntryW : KnowledgeEntry :=
  { id := 1, content := "Returns are accepted within 30 days.", source := "manual",
    sourceId := none, metadata := none, embedding := some "[1]",
    createdAt := 0, updatedAt := 0 }

def envW : RagEnv :=
  { embed := fun _ => .ok [1], store := .ok [kbEntryW], dist := fun _ _ => 1/10 }

theorem C4_witness :
    (∀ c ∈ retrieveContext envW "where is my order" 5 (7/10), ∃ s, c.similarity = some s ∧ 7/10 < s)
  ∧ List.Sorted (fun a b : ℚ => b ≤ a)
      ((retrieveContext envW "where is my order" 5 (7/10)).map (fun c => c.similarity.getD 0))
  ∧ (retrieveContext envW "where is my order" 5 (7/10)).length ≤ 5
  ∧ retrieveContextDefault envW "where is my order" =
      retrieveContext envW "where is my order" 5 (7/10) :=
  C4_retrieval_threshold_order_limit envW "where is my order" 5 (7/10) [1] [kbEntryW] rfl rfl

/-! ## Claim C5 -/

/-- Claim C5: retrieval never throws — when the embedding call fails, the
knowledge store is unreachable or empty, or no entry clears the
threshold, `retrieveContext` returns the empty list (the JS try/catch is
the error branches of the oracles; `retrieveContext` is total). -/
theorem C5_retrieval_best_effort (env : RagEnv) (q : String) (k : Nat) (θ : ℚ) :
    (∀ e, env.embed q = .error e → retrieveContext env q k θ = [])
  ∧ (∀ e, env.store = .error e → retrieveContext env q k θ = [])
  ∧ (env.store = .ok [] → retrieveContext env q k θ = [])
  ∧ (∀ qv kb, env.embed q = .ok qv → env.store = .ok kb →
      (∀ r ∈ kb, keepRow env.dist (embeddingToString qv) θ r = false) →
      retrieveContext env q k θ = []) := by
  refine ⟨?_, ?_, ?_, ?_⟩
  · intro e he; simp [retrieveContext, he]
  · intro e he
    unfold retrieveContext
    cases hq : env.embed q with
    | error _ => rfl
    | ok qv => simp [he]
  · intro he
    unfold retrieveContext
    cases hq : env.embed q with
    | error _ => rfl
    | ok qv => simp [he, ragQuery, sortOnRatKey]
  · intro qv kb hq hs hnone
    have hfilter : kb.filter (keepRow env.dist (embeddingToString qv) θ) = [] :=
      List.filter_eq_nil_iff.mpr (fun r hr => by simp [hnone r hr])
    simp [retrieveContext, hq, hs, ragQuery, hfilter, sortOnRatKey]

/-- Environment whose embedding call fails, for the C5 witness. -/
def envEmbedFail : RagEnv :=
  { embed := fun _ => .error "embedding down", store := .ok [], dist := fun _ _ => 0 }

theorem C5_witness : retrieveContext envEmbedFail "q" 5 (7/10) = [] :=
  (C5_retrieval_best_effort envEmbedFail "q" 5 (7/10)).1 "embedding down" rfl

/-! ## Claim C7 -/

/-- Claim C7: prompt composition is a deterministic pure function —
identical user message, history and context yield byte-identical output;
an empty context list yields the explicit "no context found" sentinel
line and an empty history list yields the explicit "start of
conversation" sentinel line. -/
theorem C7_prompt_deterministic_sentinels :
    (∀ m h c m2 h2 c2, m = m2 → h = h2 → c = c2 →
       constructPrompt m h c = constructPrompt m2 h2 c2)
  ∧ (∀ m h, ∃ s t, constructPrompt m h [] = s ++ noContextSentinel ++ t)
  ∧ (∀ m c, ∃ s t, constructPrompt m [] c = s ++ startSentinel ++ t) := by
  refine ⟨?_, ?_, ?_⟩
  · intro m h c m2 h2 c2 hm hh hc
    rw [hm, hh, hc]
  · intro m h
    refine ⟨promptPreamble,
      historyHeader ++
        (if h.length > 0 then String.join (h.enum.map (fun p => historyEntryLine p.1 p.2))
         else startSentinel) ++
        currentMessageHeader ++ m ++ closingInstructions, ?_⟩
    simp [constructPrompt, String.append_assoc]
  · intro m c
    refine ⟨promptPreamble ++
      (if c.length > 0 then String.join (c.enum.map (fun p => contextEntryBlock p.1 p.2))
       else noContextSentinel) ++ historyHeader,
      currentMessageHeader ++ m ++ closingInstructions, ?_⟩
    simp [constructPrompt, String.append_assoc]

theorem C7_witness :
    constructPrompt "Where is my order?" [] [] = constructPrompt "Where is my order?" [] [] :=
  C7_prompt_deterministic_sentinels.1 "Where is my order?" [] [] "Where is my order?" [] []
    rfl rfl rfl

/-! ## Claim C9 (corrected) -/

/-- Environment with no retrievable context (the embedding call fails, so
retrieval yields `[]`). -/
def envNoContext : RagEnv :=
  { embed := fun _ => .error "embedding down", store := .ok [], dist := fun _ _ => 0 }

/-- Generation oracle returning a fixed reply. -/
def genHello : String → Except String String := fun _ => .ok "Hello"


/-- Counterexample to claim C9: the claim says the confidence score
distinguishes the "had retrieved context" case from the "no context"
case (0.8 with context versus 0.6 with none). In the code,
`generateLLMResponse` returns 0.8 unconditionally: this run, whose
retrieval produced no context (`retrievedContext = none`), still yields
confidence 0.8, not 0.6, so the score does not distinguish the cases.
(The 0.6 value lives in `generatePlaceholderResponse`, which no caller
invokes.) -/
theorem C9_counterexample :
    generateLLMResponse envNoContext genHello "hi" [] true =
      .ok { content := "Hello", confidence := some (4/5), retrievedContext := none }
  ∧ (4 : ℚ)/5 ≠ 3/5 := by
  refine ⟨by rfl, by norm_num⟩

/-- Claim C9 as amended: the confidence score is a scalar in [0,1] and a
fixed placeholder, but it does not depend on whether retrieval produced
context: every successful `generateLLMResponse` reply carries 0.8, and
the (uncalled) `generatePlaceholderResponse` carries 0.6, or 0.5 from
its internal fallback. -/
theorem C9_confidence_fixed_placeholder
    (env : RagEnv) (gen : String → Except String String)
    (m : String) (h : List String) (u : Bool) :
    (∀ r, generateLLMResponse env gen m h u = .ok r →
       r.confidence = some (4/5) ∧ (0 : ℚ) ≤ 4/5 ∧ (4 : ℚ)/5 ≤ 1)
  ∧ (∀ c, (generatePlaceholderResponse gen m).confidence = some c →
       (c = 3/5 ∨ c = 1/2) ∧ (0 : ℚ) ≤ c ∧ c ≤ 1) := by
  constructor
  · intro r hr
    simp only [generateLLMResponse] at hr
    cases hg : gen (constructPrompt m h (if u then retrieveContextDefault env m else [])) with
    | error e => rw [hg] at hr; exact absurd hr (by simp)
    | ok content =>
      rw [hg] at hr
      simp only [Except.ok.injEq] at hr
      subst hr
      refine ⟨rfl, by norm_num, by norm_num⟩
  · intro c hc
    simp only [generatePlaceholderResponse] at hc
    cases hg : gen (placeholderPrompt m) with
    | ok content =>
      rw [hg] at hc
      simp only [Option.some.injEq] at hc
      exact ⟨Or.inl hc.symm, by rw [← hc]; norm_num, by rw [← hc]; norm_num⟩
    | error e =>
      rw [hg] at hc
      simp only [Option.some.injEq] at hc
      exact ⟨Or.inr hc.symm, by rw [← hc]; norm_num, by rw [← hc]; norm_num⟩

theorem C9_witness :
    LLMResponse.confidence { content := "Hello", confidence := some (4/5), retrievedContext := none } =
        some (4/5)
      ∧ (0 : ℚ) ≤ 4/5 ∧ (4 : ℚ)/5 ≤ 1 :=
  (C9_confidence_fixed_placeholder envNoContext genHello "hi" [] true).1
    { content := "Hello", confidence := some (4/5), retrievedContext := none } (by rfl)

/-! ## Claim C8 (corrected) -/

/-- A resolved conversation, for the C8 counterexample. -/
def convResolved : Conversation :=
  { id := 1, chatraConversationId := "c1", chatraAccountId := 1,
    clientName := some "Old Name", clientEmail := none, status := "resolved",
    lastMessageAt := some 5, createdAt := 1, updatedAt := 5 }

def dbResolved : DB :=
  { nextId := 2, accounts := [], conversations := [convResolved],
    messages := [], knowledgeBase := [] }

def clientC8 : PayloadClient :=
  { chatId := some "c1", name := some "New Name", displayedName := none,
    email := some "new@example.com" }

def payloadResolved : WebhookPayload :=
  { client := some clientC8, messages := none }

/-- Counterexample to claim C8: the claim says identity fields and status
are refreshed only if the conversation is not already resolved, so that
ingesting an event for a resolved conversation does not flip its status
back to active. In the code the upsert's update branch writes
`status: 'active'` unconditionally: ingesting an event for this resolved
conversation sets its status to `active`. -/
theorem C8_counterexample :
    convResolved.status = "resolved"
  ∧ ((processRealChatraWebhook dbResolved payloadResolved 1 10).conversations.map
      (fun c => c.status)) = ["active"] :=
  ⟨rfl, by decide⟩

/-- Claim C8 as amended: for a payload whose external conversation id is
absent, a conversation is created with status `active` and the captured
client identity; for one already present, the identity fields and the
status are refreshed unconditionally — the status is reset to `active`
even when the conversation is resolved — and the `updatedAt` timestamp
is always refreshed, while `createdAt` and `lastMessageAt` are kept. -/
theorem C8_upsert_refresh
    (db : DB) (p : WebhookPayload) (acct now : Nat)
    (client : PayloadClient) (cid : String)
    (hc : p.client = some client) (hcid : jstr client.chatId = some cid) :
    (db.conversations.any (fun c => c.chatraConversationId == cid) = false →
       (processRealChatraWebhook db p acct now).conversations =
         db.conversations ++
           [{ id := db.nextId, chatraConversationId := cid, chatraAccountId := acct,
              clientName := some ((jsOr client.name client.displayedName).getD "Anonymous"),
              clientEmail := jstr client.email, status := "active",
              lastMessageAt := none, createdAt := now, updatedAt := now }])
  ∧ (∀ c ∈ db.conversations, c.chatraConversationId = cid →
       ({ c with
            chatraConversationId := cid, chatraAccountId := acct,
            clientName := some ((jsOr client.name client.displayedName).getD "Anonymous"),
            clientEmail := jstr client.email, status := "active",
            updatedAt := now } : Conversation) ∈
         (processRealChatraWebhook db p acct now).conversations) := by
  constructor
  · intro hany
    simp [processRealChatraWebhook, hc, hcid, hany]
  · intro c hcmem hceq
    have hany : db.conversations.any (fun c => c.chatraConversationId == cid) = true :=
      List.any_eq_true.mpr ⟨c, hcmem, by simp [hceq]⟩
    simp only [processRealChatraWebhook, hc, hcid, hany, if_true]
    have hfc : (if c.chatraConversationId == cid then
        ({ c with
             chatraConversationId := cid, chatraAccountId := acct,
             clientName := some ((jsOr client.name client.displayedName).getD "Anonymous"),
             clientEmail := jstr client.email, status := "active",
             updatedAt := now } : Conversation) else c) =
        ({ c with
             chatraConversationId := cid, chatraAccountId := acct,
             clientName := some ((jsOr client.name client.displayedName).getD "Anonymous"),
             clientEmail := jstr client.email, status := "active",
             updatedAt := now } : Conversation) := by
      rw [if_pos (by simp [hceq])]
    exact hfc ▸ List.mem_map_of_mem _ hcmem

/-- A fresh store for the C8 witness. -/
def dbEmptyW : DB :=
  { nextId := 1, accounts := [], conversations := [], messages := [], knowledgeBase := [] }

theorem C8_witness :
    (processRealChatraWebhook dbEmptyW payloadResolved 1 10).conversations =
      dbEmptyW.conversations ++
        [{ id := dbEmptyW.nextId, chatraConversationId := "c1", chatraAccountId := 1,
           clientName := some ((jsOr (some "New Name") none).getD "Anonymous"),
           clientEmail := jstr (some "new@example.com"), status := "active",
           lastMessageAt := none, createdAt := 10, updatedAt := 10 }] :=
  (C8_upsert_refresh dbEmptyW payloadResolved 1 10 clientC8 "c1" rfl rfl).1 rfl

/-! ## Approval workflow: shared lemmas and fixtures -/

instance {ε α : Type} [DecidableEq ε] [DecidableEq α] : DecidableEq (Except ε α) := by
  intro a b
  cases a with
  | ok x =>
    cases b with
    | ok y => exact if h : x = y then isTrue (by rw [h]) else isFalse (fun hc => h (by cases hc; rfl))
    | error y => exact isFalse (fun hc => by cases hc)
  | error x =>
    cases b with
    | ok y => exact isFalse (fun hc => by cases hc)
    | error y => exact if h : x = y then isTrue (by rw [h]) else isFalse (fun hc => h (by cases hc; rfl))

theorem approvalUpdate_inv {db : DB} {messageId now : Nat} {msg : Message} {db1 : DB}
    (h : approvalUpdate db messageId now = some (msg, db1)) :
    ∃ m0, db.messages.find? (fun m => m.id == messageId) = some m0
      ∧ msg = { m0 with isApproved := some true, updatedAt := now }
      ∧ db1 = { db with messages := db.messages.map (fun m =>
          if m.id == messageId then msg else m) } := by
  unfold approvalUpdate at h
  cases hfind : db.messages.find? (fun m => m.id == messageId) with
  | none => rw [hfind] at h; exact absurd h (by simp)
  | some m0 =>
    rw [hfind] at h
    simp only [Option.some.injEq, Prod.mk.injEq] at h
    refine ⟨m0, rfl, h.1.symm, ?_⟩
    rw [← h.2, ← h.1]

theorem approvalUpdate_fields {db : DB} {messageId now : Nat} {msg : Message} {db1 : DB}
    (h : approvalUpdate db messageId now = some (msg, db1)) :
    msg.isApproved = some true ∧ msg.updatedAt = now
  ∧ db1.knowledgeBase = db.knowledgeBase ∧ db1.conversations = db.conversations
  ∧ db1.accounts = db.accounts ∧ db1.nextId = db.nextId
  ∧ db1.messages.find? (fun m => m.id == messageId) = some msg := by
  obtain ⟨m0, hfind, hmsg, hdb1⟩ := approvalUpdate_inv h
  have hp : (fun (m : Message) => m.id == messageId) m0 = true :=
    @List.find?_some Message (fun m => m.id == messageId) m0 db.messages hfind
  have hy : (fun (m : Message) => m.id == messageId) msg = true := by rw [hmsg]; exact hp
  refine ⟨by rw [hmsg], by rw [hmsg], by rw [hdb1], by rw [hdb1], by rw [hdb1],
    by rw [hdb1], ?_⟩
  rw [hdb1]
  exact find?_replace _ msg hy db.messages (by rw [hfind]; rfl)

/-- A Chatra account, conversation and message fixtures used by the
approval-workflow witnesses and counterexamples. -/
def acctA : ChatraAccount :=
  { id := 1, name := "Main", chatraId := "ZRX3EvWsmnPNr6m9x", apiKey := "k",
    webhookSecret := "s", isActive := true }

def convA : Conversation :=
  { id := 1, chatraConversationId := "chat1", chatraAccountId := 1,
    clientName := some "Ada", clientEmail := none, status := "active",
    lastMessageAt := some 2, createdAt := 1, updatedAt := 2 }

def msgClientA : Message :=
  { id := 1, conversationId := 1, chatraMessageId := some "m1",
    content := "Where is my order?", senderType := "client", senderName := some "Ada",
    messageType := "text", retrievedContext := none, confidence := none,
    isApproved := none, createdAt := 1, updatedAt := 1 }

/-- An llm draft that is already approved. -/
def msgLlmApprovedA : Message :=
  { id := 2, conversationId := 1, chatraMessageId := none, content := "Let me check.",
    senderType := "llm", senderName := some "AI Assistant", messageType := "text",
    retrievedContext := none, confidence := none, isApproved := some true,
    createdAt := 2, updatedAt := 2 }

/-- The same llm draft while still pending. -/
def msgLlmPendingA : Message :=
  { id := 2, conversationId := 1, chatraMessageId := none, content := "Let me check.",
    senderType := "llm", senderName := some "AI Assistant", messageType := "text",
    retrievedContext := none, confidence := none, isApproved := none,
    createdAt := 2, updatedAt := 2 }

def dbApprovedA : DB :=
  { nextId := 3, accounts := [acctA], conversations := [convA],
    messages := [msgClientA, msgLlmApprovedA], knowledgeBase := [] }

def dbPendingA : DB :=
  { nextId := 3, accounts := [acctA], conversations := [convA],
    messages := [msgClientA, msgLlmPendingA], knowledgeBase := [] }

def sendOkStub : Nat → String → String → String → Bool := fun _ _ _ _ => true

def sendFailStub : Nat → String → String → String → Bool := fun _ _ _ _ => false

def embedStub : String → Except String (List ℚ) := fun _ => .ok []

def sessA : Session := { name := some "Agent Smith", email := none }

/-! ## Claim C2 (corrected) -/

/-- Counterexample to claim C2: the claim says a second approve call on a
message that is already approved does not call the delivery adapter
again. `msgLlmApprovedA` is already approved (`isApproved = some true`),
yet approving it once more performs one delivery-adapter call, not
zero: `approveMessage` has no guard on the prior approval state. -/
theorem C2_counterexample :
    msgLlmApprovedA.isApproved = some true
  ∧ ((approveMessage sendOkStub embedStub 10 (some sessA) dbApprovedA 2 true).2.1).length
      = 1 :=
  ⟨rfl, by decide⟩

/-- Claim C2 as amended: approving an llm message of a conversation with
a configured Chatra account calls the outbound delivery adapter exactly
once per invocation — regardless of the message's prior approval state,
so a repeated approve call re-delivers — and a non-llm approval makes no
delivery call. -/
theorem C2_delivery_per_invocation
    (send : Nat → String → String → String → Bool)
    (embed : String → Except String (List ℚ)) (now : Nat) (sess : Session)
    (db : DB) (messageId : Nat) (extract : Bool)
    {msg : Message} {db1 : DB} {conv : Conversation} {acct : ChatraAccount}
    (hupd : approvalUpdate db messageId now = some (msg, db1))
    (hconv : db1.conversations.find? (fun c => c.id == msg.conversationId) = some conv)
    (hacct : db1.accounts.find? (fun a => a.id == conv.chatraAccountId) = some acct) :
    (msg.senderType = "llm" →
       (approveMessage send embed now (some sess) db messageId extract).2.1 =
         [{ accountId := acct.id, conversationId := conv.chatraConversationId,
            text := msg.content, senderName := sess.name.getD "AI Assistant",
            result := send acct.id conv.chatraConversationId msg.content
              (sess.name.getD "AI Assistant") }])
  ∧ (msg.senderType ≠ "llm" →
       (approveMessage send embed now (some sess) db messageId extract).2.1 = []) := by
  constructor
  · intro hllm
    have hbeq : (msg.senderType == "llm") = true := by simp [hllm]
    simp only [approveMessage, hupd, hconv, hacct, hbeq, if_true]
    split
    · split
      · split
        · rfl
        · split
          · rfl
          · rfl
      · rfl
    · rfl
  · intro hllm
    have hbeq : (msg.senderType == "llm") = false := by simp [hllm]
    simp only [approveMessage, hupd, hconv, hacct, hbeq, Bool.and_false, if_false]
    rfl

theorem C2_witness :
    (approveMessage sendOkStub embedStub 10 (some sessA) dbPendingA 2 true).2.1 =
      [{ accountId := 1, conversationId := "chat1", text := "Let me check.",
         senderName := "Agent Smith", result := true }] :=
  (C2_delivery_per_invocation sendOkStub embedStub 10 sessA dbPendingA 2 true
    rfl rfl rfl).1 rfl

/-! ## Claim C3 (corrected) -/

/-- Counterexample to claim C3: the claim says a delivery failure is
surfaced to the caller as a non-fatal warning. The run with the failing
adapter does make one delivery call that fails (`result := false`), yet
its caller-visible outcome — the returned value and the post-run store —
is identical to the run whose delivery succeeds: `approveMessage`
returns `{ success: true, message }` with no warning field, so nothing
of the failure reaches the caller (it is only logged). -/
theorem C3_counterexample :
    (approveMessage sendFailStub embedStub 10 (some sessA) dbPendingA 2 true).2.1 =
      [{ accountId := 1, conversationId := "chat1", text := "Let me check.",
         senderName := "Agent Smith", result := false }]
  ∧ (approveMessage sendFailStub embedStub 10 (some sessA) dbPendingA 2 true).2.2 =
      (approveMessage sendOkStub embedStub 10 (some sessA) dbPendingA 2 true).2.2
  ∧ (approveMessage sendFailStub embedStub 10 (some sessA) dbPendingA 2 true).1 =
      (approveMessage sendOkStub embedStub 10 (some sessA) dbPendingA 2 true).1 := by
  refine ⟨by decide, by decide, by decide⟩

/-- Claim C3 as amended: if the outbound send fails, `approveMessage`
still leaves the message approved, returns a success result and does not
throw; but the failure is not surfaced to the caller — the returned
value and the resulting store are identical to those of a successful
delivery (the failure is only logged). -/
theorem C3_delivery_failure_isolated
    (embed : String → Except String (List ℚ)) (now : Nat) (sess : Session)
    (db : DB) (messageId : Nat) (extract : Bool)
    (sendF sendT : Nat → String → String → String → Bool)
    {msg : Message} {db1 : DB} {conv : Conversation}
    (hupd : approvalUpdate db messageId now = some (msg, db1))
    (hconv : db1.conversations.find? (fun c => c.id == msg.conversationId) = some conv)
    (hembed : ∀ s, ∃ v, embed s = .ok v) :
    ((approveMessage sendF embed now (some sess) db messageId extract).2.2 =
        .ok { success := true, message := msg })
  ∧ (((approveMessage sendF embed now (some sess) db messageId extract).1.messages.find?
        (fun m => m.id == messageId)).map (fun m => m.isApproved) = some (some true))
  ∧ ((approveMessage sendF embed now (some sess) db messageId extract).1 =
       (approveMessage sendT embed now (some sess) db messageId extract).1)
  ∧ ((approveMessage sendF embed now (some sess) db messageId extract).2.2 =
       (approveMessage sendT embed now (some sess) db messageId extract).2.2) := by
  obtain ⟨hisApp, -, -, -, -, -, hfindmsg⟩ := approvalUpdate_fields hupd
  have key : ∀ send : Nat → String → String → String → Bool,
      (approveMessage send embed now (some sess) db messageId extract).1.messages =
        db1.messages
    ∧ (approveMessage send embed now (some sess) db messageId extract).2.2 =
        .ok { success := true, message := msg } := by
    intro send
    simp only [approveMessage, hupd, hconv]
    split
    · split
      · split
        · exact ⟨rfl, rfl⟩
        · split
          · rename_i e heq
            obtain ⟨v, hv⟩ := hembed _
            rw [hv] at heq
            exact absurd heq (by simp)
          · exact ⟨rfl, rfl⟩
      · exact ⟨rfl, rfl⟩
    · exact ⟨rfl, rfl⟩
  have keyEq :
      (approveMessage sendF embed now (some sess) db messageId extract).1 =
        (approveMessage sendT embed now (some sess) db messageId extract).1
    ∧ (approveMessage sendF embed now (some sess) db messageId extract).2.2 =
        (approveMessage sendT embed now (some sess) db messageId extract).2.2 := by
    simp only [approveMessage, hupd, hconv]
    split
    · split
      · split
        · exact ⟨rfl, rfl⟩
        · split
          · rename_i e heq
            obtain ⟨v, hv⟩ := hembed _
            rw [hv] at heq
            exact absurd heq (by simp)
          · exact ⟨rfl, rfl⟩
      · exact ⟨rfl, rfl⟩
    · exact ⟨rfl, rfl⟩
  refine ⟨(key sendF).2, ?_, keyEq.1, keyEq.2⟩
  rw [(key sendF).1, hfindmsg]
  simp [hisApp]

theorem C3_witness :
    (approveMessage sendFailStub embedStub 10 (some sessA) dbPendingA 2 true).1 =
      (approveMessage sendOkStub embedStub 10 (some sessA) dbPendingA 2 true).1 :=
  (C3_delivery_failure_isolated embedStub 10 sessA dbPendingA 2 true
    sendFailStub sendOkStub rfl rfl (fun _ => ⟨[], rfl⟩)).2.2.1

/-! ## Claim C10 -/

/-- Claim C10 (implicit): the approval-state update is not guarded by
sender kind — for every existing message id, `approveMessage` sets the
approval state to approved and `rejectMessage` to rejected even when the
sender kind is `client` or `agent`; only the delivery and the
knowledge-extraction steps are conditioned on sender kind `llm`, so a
non-llm approval makes no delivery call and writes no knowledge entry. -/
theorem C10_approval_not_guarded_by_sender
    (send : Nat → String → String → String → Bool)
    (embed : String → Except String (List ℚ)) (now : Nat) (sess : Session)
    (db : DB) (messageId : Nat) (extract : Bool)
    {msg : Message} {db1 : DB} {conv : Conversation}
    (hupd : approvalUpdate db messageId now = some (msg, db1))
    (hconv : db1.conversations.find? (fun c => c.id == msg.conversationId) = some conv)
    (hkind : msg.senderType = "client" ∨ msg.senderType = "agent") :
    (((approveMessage send embed now (some sess) db messageId extract).1.messages.find?
        (fun m => m.id == messageId)).map (fun m => m.isApproved) = some (some true))
  ∧ (approveMessage send embed now (some sess) db messageId extract).2.2 =
      .ok { success := true, message := msg }
  ∧ (approveMessage send embed now (some sess) db messageId extract).2.1 = []
  ∧ (approveMessage send embed now (some sess) db messageId extract).1.knowledgeBase =
      db.knowledgeBase
  ∧ (((rejectMessage now (some sess) db messageId).1.messages.find?
        (fun m => m.id == messageId)).map (fun m => m.isApproved) = some (some false))
  ∧ (rejectMessage now (some sess) db messageId).2 =
      .ok { success := true, message := { msg with isApproved := some false } } := by
  obtain ⟨m0, hfind, hmsg, hdb1⟩ := approvalUpdate_inv hupd
  obtain ⟨hisApp, -, hkb, -, -, -, hfindmsg⟩ := approvalUpdate_fields hupd
  have hbeq : (msg.senderType == "llm") = false := by
    cases hkind with
    | inl h => rw [h]; decide
    | inr h => rw [h]; decide
  have hres : approveMessage send embed now (some sess) db messageId extract =
      (db1, [], .ok { success := true, message := msg }) := by
    cases hacc : db1.accounts.find? (fun a => a.id == conv.chatraAccountId) with
    | none =>
      simp only [approveMessage, hupd, hconv, hacc, hbeq, Bool.and_false, Bool.false_eq_true,
        if_false]
    | some acct =>
      simp only [approveMessage, hupd, hconv, hacc, hbeq, Bool.and_false, Bool.false_eq_true,
        if_false]
  refine ⟨?_, by rw [hres], by rw [hres], by rw [hres]; exact hkb, ?_, ?_⟩
  · rw [hres]
    rw [hfindmsg]
    simp [hisApp]
  · have hp : (fun (m : Message) => m.id == messageId) m0 = true :=
      @List.find?_some Message (fun m => m.id == messageId) m0 db.messages hfind
    have hy : (fun (m : Message) => m.id == messageId)
        ({ m0 with isApproved := some false, updatedAt := now }) = true := hp
    simp only [rejectMessage, hfind]
    rw [@find?_replace Message (fun m => m.id == messageId)
      ({ m0 with isApproved := some false, updatedAt := now }) hy db.messages
      (by rw [hfind]; rfl)]
    simp
  · simp only [rejectMessage, hfind]
    rw [hmsg]

/-- C10 witness: the client-sender message `msgClientA` (id 1) is marked
approved through `approveMessage` with no delivery call. -/
theorem C10_witness :
    (approveMessage sendOkStub embedStub 10 (some sessA) dbApprovedA 1 true).2.1 = [] :=
  (C10_approval_not_guarded_by_sender sendOkStub embedStub 10 sessA dbApprovedA 1 true
    rfl rfl (Or.inl rfl)).2.2.1

/-! ## Claim C6 (corrected) -/

/-- When the window search finds a client message, the pair is new and
the embedding call succeeds, `approveMessage` appends exactly the
extraction entry to the knowledge base. -/
theorem approveMessage_extract_insert
    (send : Nat → String → String → String → Bool)
    (embed : String → Except String (List ℚ)) (now : Nat) (sess : Session)
    (db : DB) (messageId : Nat)
    {msg : Message} {db1 : DB} {conv : Conversation} {cm : Message} {vec : List ℚ}
    (hupd : approvalUpdate db messageId now = some (msg, db1))
    (hllm : msg.senderType = "llm")
    (hconv : db1.conversations.find? (fun c => c.id == msg.conversationId) = some conv)
    (hcm : precedingClientInWindow db1 conv msg = some cm)
    (hdup : db1.knowledgeBase.find?
        (fun e => e.content == "Q: " ++ cm.content ++ "\nA: " ++ msg.content &&
          e.sourceId == some msg.conversationId) = none)
    (hvec : embed ("Q: " ++ cm.content ++ "\nA: " ++ msg.content) = .ok vec) :
    (approveMessage send embed now (some sess) db messageId true).1.knowledgeBase =
      db1.knowledgeBase ++ [extractionEntry db1 conv msg cm vec now] := by
  have hbeq : (msg.senderType == "llm") = true := by simp [hllm]
  simp only [approveMessage, hupd, hconv, hbeq, Bool.true_and, eq_self_iff_true, if_true,
    hcm, hdup, hvec]

/-- When the window search finds a client message but an entry with the
same (content, sourceId) already exists, `approveMessage` leaves the
knowledge base unchanged. -/
theorem approveMessage_extract_dup
    (send : Nat → String → String → String → Bool)
    (embed : String → Except String (List ℚ)) (now : Nat) (sess : Session)
    (db : DB) (messageId : Nat)
    {msg : Message} {db1 : DB} {conv : Conversation} {cm : Message} {e : KnowledgeEntry}
    (hupd : approvalUpdate db messageId now = some (msg, db1))
    (hllm : msg.senderType = "llm")
    (hconv : db1.conversations.find? (fun c => c.id == msg.conversationId) = some conv)
    (hcm : precedingClientInWindow db1 conv msg = some cm)
    (hdup : db1.knowledgeBase.find?
        (fun x => x.content == "Q: " ++ cm.content ++ "\nA: " ++ msg.content &&
          x.sourceId == some msg.conversationId) = some e) :
    (approveMessage send embed now (some sess) db messageId true).1.knowledgeBase =
      db1.knowledgeBase := by
  have hbeq : (msg.senderType == "llm") = true := by simp [hllm]
  simp only [approveMessage, hupd, hconv, hbeq, Bool.true_and, eq_self_iff_true, if_true,
    hcm, hdup]

/-- Fixtures for the C6 counterexample: a conversation with twelve
messages. The earliest is a client question, messages 2-10 are agent
messages, message 11 is a newer client question, message 12 is the llm
draft to approve. -/
def msgOldQ : Message :=
  { id := 1, conversationId := 1, chatraMessageId := some "m1", content := "old question",
    senderType := "client", senderName := some "Ada", messageType := "text",
    retrievedContext := none, confidence := none, isApproved := none,
    createdAt := 1, updatedAt := 1 }

def agentMsgC6 (i : Nat) : Message :=
  { id := i, conversationId := 1, chatraMessageId := none, content := "ack",
    senderType := "agent", senderName := some "Agent", messageType := "text",
    retrievedContext := none, confidence := none, isApproved := none,
    createdAt := i, updatedAt := i }

def msgNewQ : Message :=
  { id := 11, conversationId := 1, chatraMessageId := some "m11", content := "new question",
    senderType := "client", senderName := some "Ada", messageType := "text",
    retrievedContext := none, confidence := none, isApproved := none,
    createdAt := 11, updatedAt := 11 }

def msgDraft : Message :=
  { id := 12, conversationId := 1, chatraMessageId := none, content := "draft answer",
    senderType := "llm", senderName := some "AI Assistant", messageType := "text",
    retrievedContext := none, confidence := none, isApproved := none,
    createdAt := 12, updatedAt := 12 }

def dbC6 : DB :=
  { nextId := 13, accounts := [], conversations := [convA],
    messages := [msgOldQ, agentMsgC6 2, agentMsgC6 3, agentMsgC6 4, agentMsgC6 5,
      agentMsgC6 6, agentMsgC6 7, agentMsgC6 8, agentMsgC6 9, agentMsgC6 10,
      msgNewQ, msgDraft],
    knowledgeBase := [] }

/-- Counterexample to claim C6: the claim says the workflow locates the
nearest preceding client message in the conversation, searching backward
from the approved message by timestamp. The query behind the search
takes the first ten messages of the conversation ordered by `createdAt`
ascending (`orderBy: asc, take: 10`), so in this twelve-message
conversation the nearest preceding client message — "new question" at
timestamp 11 — is outside the window, and the inserted entry quotes the
"old question" from timestamp 1 instead. -/
theorem C6_counterexample :
    ((approveMessage sendOkStub embedStub 100 (some sessA) dbC6 12 true).1.knowledgeBase.map
        (fun e => e.content)) = ["Q: old question\nA: draft answer"]
  ∧ ((specPrecedingClientMessage (dbC6.messages.filter (fun m => m.conversationId == 1))
        msgDraft).map (fun m => m.content)) = some "new question"
  ∧ ("Q: old question\nA: draft answer" : String) ≠ "Q: new question\nA: draft answer" := by
  refine ⟨by decide, by decide, by decide⟩

/-- Claim C6 as amended: on `approve(messageId, extractToKnowledge=true)`
of an llm message, the workflow searches backward by timestamp for a
preceding client message within the earliest ten messages of the
conversation (the `orderBy: createdAt asc, take: 10` window, not the
whole conversation); if one is found it inserts a knowledge entry
`Q: <client text>\nA: <approved text>` tagged source
`approved_response` with the conversation id as source id, unless an
entry with identical (content, sourceId) already exists — so approving
two llm messages whose extraction yields the same (content, sourceId)
pair leaves exactly one knowledge entry. -/
theorem C6_extraction_window_dedup
    (send : Nat → String → String → String → Bool)
    (embed : String → Except String (List ℚ)) (now1 now2 : Nat) (sess : Session)
    (db : DB) (idA idB : Nat)
    {msgA : Message} {dbA1 : DB} {convA1 : Conversation} {cmA : Message} {vec : List ℚ}
    {msgB : Message} {dbB1 : DB} {convB1 : Conversation} {cmB : Message}
    (hA : approvalUpdate db idA now1 = some (msgA, dbA1))
    (hAllm : msgA.senderType = "llm")
    (hconvA : dbA1.conversations.find? (fun c => c.id == msgA.conversationId) = some convA1)
    (hcmA : precedingClientInWindow dbA1 convA1 msgA = some cmA)
    (hkb0 : kbCount db ("Q: " ++ cmA.content ++ "\nA: " ++ msgA.content)
      (some msgA.conversationId) = 0)
    (hvec : embed ("Q: " ++ cmA.content ++ "\nA: " ++ msgA.content) = .ok vec)
    (hB : approvalUpdate (approveMessage send embed now1 (some sess) db idA true).1 idB now2
      = some (msgB, dbB1))
    (hBllm : msgB.senderType = "llm")
    (hconvB : dbB1.conversations.find? (fun c => c.id == msgB.conversationId) = some convB1)
    (hcmB : precedingClientInWindow dbB1 convB1 msgB = some cmB)
    (hsameQA : "Q: " ++ cmB.content ++ "\nA: " ++ msgB.content =
      "Q: " ++ cmA.content ++ "\nA: " ++ msgA.content)
    (hsameConv : msgB.conversationId = msgA.conversationId) :
    kbCount (approveMessage send embed now1 (some sess) db idA true).1
        ("Q: " ++ cmA.content ++ "\nA: " ++ msgA.content) (some msgA.conversationId) = 1
  ∧ (∃ e ∈ (approveMessage send embed now1 (some sess) db idA true).1.knowledgeBase,
      e.content = "Q: " ++ cmA.content ++ "\nA: " ++ msgA.content
      ∧ e.source = "approved_response" ∧ e.sourceId = some msgA.conversationId)
  ∧ kbCount (approveMessage send embed now2 (some sess)
        (approveMessage send embed now1 (some sess) db idA true).1 idB true).1
        ("Q: " ++ cmA.content ++ "\nA: " ++ msgA.content) (some msgA.conversationId) = 1 := by
  obtain ⟨-, -, hkbA1, -, -, -, -⟩ := approvalUpdate_fields hA
  have hcnt0 : (dbA1.knowledgeBase.filter
      (fun e => e.content == "Q: " ++ cmA.content ++ "\nA: " ++ msgA.content &&
        e.sourceId == some msgA.conversationId)).length = 0 := by
    rw [hkbA1]
    exact hkb0
  have hdupA : dbA1.knowledgeBase.find?
      (fun e => e.content == "Q: " ++ cmA.content ++ "\nA: " ++ msgA.content &&
        e.sourceId == some msgA.conversationId) = none :=
    count_zero_find?_none _ _ hcnt0
  have hinsA := approveMessage_extract_insert send embed now1 sess db idA
    hA hAllm hconvA hcmA hdupA hvec
  have hcntA : kbCount (approveMessage send embed now1 (some sess) db idA true).1
      ("Q: " ++ cmA.content ++ "\nA: " ++ msgA.content) (some msgA.conversationId) = 1 := by
    unfold kbCount
    rw [hinsA, filter_length_append_single, hcnt0]
    simp [extractionEntry]
  obtain ⟨-, -, hkbB1, -, -, -, -⟩ := approvalUpdate_fields hB
  have hcntB : (dbB1.knowledgeBase.filter
      (fun e => e.content == "Q: " ++ cmB.content ++ "\nA: " ++ msgB.content &&
        e.sourceId == some msgB.conversationId)).length = 1 := by
    simp only [hsameQA, hsameConv]
    rw [hkbB1]
    exact hcntA
  have hfindB : ((approveMessage send embed now1 (some sess) db idA true).1.knowledgeBase.find?
      (fun e => e.content == "Q: " ++ cmB.content ++ "\nA: " ++ msgB.content &&
        e.sourceId == some msgB.conversationId)).isSome = true := by
    rw [← hkbB1]
    exact count_pos_find?_isSome _ _ (by rw [hcntB]; exact Nat.one_pos)
  refine ⟨hcntA, ?_, ?_⟩
  · refine ⟨extractionEntry dbA1 convA1 msgA cmA vec now1, ?_, rfl, rfl, rfl⟩
    rw [hinsA]
    exact List.mem_append_right _ (List.mem_singleton.mpr rfl)
  · cases hf : dbB1.knowledgeBase.find?
        (fun e => e.content == "Q: " ++ cmB.content ++ "\nA: " ++ msgB.content &&
          e.sourceId == some msgB.conversationId) with
    | none =>
      rw [hkbB1] at hf
      rw [hf] at hfindB
      exact absurd hfindB (by simp)
    | some e =>
      have hdupB := approveMessage_extract_dup send embed now2 sess
        (approveMessage send embed now1 (some sess) db idA true).1 idB
        hB hBllm hconvB hcmB hf
      unfold kbCount
      rw [hdupB]
      simp only [hsameQA, hsameConv] at hcntB
      exact hcntB

/-- Fixtures for the C6 witness: two pending llm drafts with identical
content in the same conversation, both preceded by the same client
question. -/
def msgDraftW1 : Message :=
  { id := 2, conversationId := 1, chatraMessageId := none, content := "Let me check.",
    senderType := "llm", senderName := some "AI Assistant", messageType := "text",
    retrievedContext := none, confidence := none, isApproved := none,
    createdAt := 2, updatedAt := 2 }

def msgDraftW2 : Message :=
  { id := 3, conversationId := 1, chatraMessageId := none, content := "Let me check.",
    senderType := "llm", senderName := some "AI Assistant", messageType := "text",
    retrievedContext := none, confidence := none, isApproved := none,
    createdAt := 3, updatedAt := 3 }

def dbC6W : DB :=
  { nextId := 4, accounts := [], conversations := [convA],
    messages := [msgClientA, msgDraftW1, msgDraftW2], knowledgeBase := [] }

theorem C6_witness :
    kbCount (approveMessage sendOkStub embedStub 20 (some sessA)
        (approveMessage sendOkStub embedStub 10 (some sessA) dbC6W 2 true).1 3 true).1
      ("Q: " ++ "Where is my order?" ++ "\nA: " ++ "Let me check.") (some 1) = 1 :=
  (C6_extraction_window_dedup sendOkStub embedStub 10 20 sessA dbC6W 2 3
    rfl rfl rfl rfl rfl rfl rfl rfl rfl rfl rfl rfl).2.2

/-! ## Claim C1: ingestion invariants -/

theorem count_zero_any_false {α : Type} (p : α → Bool) (l : List α)
    (h : (l.filter p).length = 0) : l.any p = false := by
  rw [← Bool.not_eq_true]
  intro hcon
  have := (count_pos_iff_any p l).mpr hcon
  omega

/-- `processRealChatraWebhook` never touches the message table. -/
theorem processReal_messages (db : DB) (p : WebhookPayload) (a t : Nat) :
    (processRealChatraWebhook db p a t).messages = db.messages := by
  unfold processRealChatraWebhook
  split
  · rfl
  · split
    · rfl
    · split <;> rfl

theorem processReal_msgCount (db : DB) (p : WebhookPayload) (a t : Nat) (mid : String) :
    msgCount (processRealChatraWebhook db p a t) mid = msgCount db mid := by
  unfold msgCount
  rw [processReal_messages]

/-- The conversation upsert creates exactly one row when the external id
is absent. -/
theorem processReal_create (db : DB) (p : WebhookPayload) (a t : Nat)
    (client : PayloadClient) (cid : String)
    (hc : p.client = some client) (hcid : jstr client.chatId = some cid)
    (habs : db.conversations.any (fun c => c.chatraConversationId == cid) = false) :
    convCount (processRealChatraWebhook db p a t) cid = convCount db cid + 1 := by
  simp only [processRealChatraWebhook, hc, hcid, habs, Bool.false_eq_true, if_false]
  unfold convCount
  rw [filter_length_append_single]
  simp

/-- The conversation upsert preserves every conversation count when the
external id is present (the update branch maps rows in place and keeps
their external id). -/
theorem processReal_update (db : DB) (p : WebhookPayload) (a t : Nat)
    (client : PayloadClient) (cid : String)
    (hc : p.client = some client) (hcid : jstr client.chatId = some cid)
    (hpres : db.conversations.any (fun c => c.chatraConversationId == cid) = true)
    (cid2 : String) :
    convCount (processRealChatraWebhook db p a t) cid2 = convCount db cid2 := by
  simp only [processRealChatraWebhook, hc, hcid, hpres, if_true]
  unfold convCount
  refine filter_length_map_eq _ _ (fun c => ?_) _
  by_cases h : (c.chatraConversationId == cid) = true
  · have hceq : c.chatraConversationId = cid := by simpa using h
    simp [h, hceq]
  · simp [h]

theorem convCount_pos_find? (db : DB) (cid : String) (h : 0 < convCount db cid) :
    ∃ conv, db.conversations.find? (fun c => c.chatraConversationId == cid) = some conv := by
  have hs := @count_pos_find?_isSome Conversation (fun c => c.chatraConversationId == cid)
    db.conversations h
  exact Option.isSome_iff_exists.mp hs

/-- One non-skipped step of the message loop: it hands the recursion a
store in which the new payload message's external id count went up by
one and every other external id count is unchanged. -/
theorem processMessages_cons_case (llm : String → List String → Except String LLMResponse)
    (now : Nat) (conv : Conversation) (m : PayloadMessage) (rest : List PayloadMessage)
    (db : DB) (hist : List Message)
    (hany : db.messages.any (fun x => x.chatraMessageId == some m.id) = false) :
    ∃ db2 hist2,
      processMessages llm now conv db hist (m :: rest) =
        processMessages llm now conv db2 hist2 rest
    ∧ msgCount db2 m.id = msgCount db m.id + 1
    ∧ (∀ mid, mid ≠ m.id → msgCount db2 mid = msgCount db mid)
    ∧ db2.conversations = db.conversations := by
  simp only [processMessages, hany, Bool.false_eq_true, if_false]
  cases hcl : (m.type == "client" && (jstr m.text).isSome) with
  | false =>
    simp only [hcl, Bool.false_eq_true, if_false]
    refine ⟨_, _, rfl, ?_, ?_, rfl⟩
    · unfold msgCount
      rw [filter_length_append_single]
      simp
    · intro mid hne
      have hne2 : m.id ≠ mid := Ne.symm hne
      unfold msgCount
      rw [filter_length_append_single]
      simp [hne2]
  | true =>
    simp only [hcl, if_true]
    cases hgen : llm ((jstr m.text).getD "") (formatConversationHistory hist.reverse) with
    | ok resp =>
      simp only [hgen]
      refine ⟨_, _, rfl, ?_, ?_, rfl⟩
      · unfold msgCount
        rw [filter_length_append_single, filter_length_append_single]
        simp
      · intro mid hne
        have hne2 : m.id ≠ mid := Ne.symm hne
        unfold msgCount
        rw [filter_length_append_single, filter_length_append_single]
        simp [hne2]
    | error e =>
      simp only [hgen]
      refine ⟨_, _, rfl, ?_, ?_, rfl⟩
      · unfold msgCount
        rw [filter_length_append_single]
        simp
      · intro mid hne
        have hne2 : m.id ≠ mid := Ne.symm hne
        unfold msgCount
        rw [filter_length_append_single]
        simp [hne2]

/-- `processMessages` never touches the conversation table. -/
theorem processMessages_conversations (llm : String → List String → Except String LLMResponse)
    (now : Nat) (conv : Conversation) :
    ∀ (ms : List PayloadMessage) (db : DB) (hist : List Message),
      (processMessages llm now conv db hist ms).conversations = db.conversations := by
  intro ms
  induction ms with
  | nil => intro db hist; rfl
  | cons m rest ih =>
    intro db hist
    cases hany : db.messages.any (fun x => x.chatraMessageId == some m.id) with
    | true =>
      have hskip : processMessages llm now conv db hist (m :: rest) =
          processMessages llm now conv db hist rest := by
        simp only [processMessages, hany, if_true]
      rw [hskip]
      exact ih db hist
    | false =>
      obtain ⟨db2, hist2, heq, -, -, hconvs⟩ :=
        processMessages_cons_case llm now conv m rest db hist hany
      rw [heq, ih db2 hist2, hconvs]

/-- Skip pass: when every payload message id already exists, the message
loop is a no-op on the store. -/
theorem processMessages_skip (llm : String → List String → Except String LLMResponse)
    (now : Nat) (conv : Conversation) :
    ∀ (ms : List PayloadMessage) (db : DB) (hist : List Message),
      (∀ m ∈ ms, 0 < msgCount db m.id) →
      processMessages llm now conv db hist ms = db := by
  intro ms
  induction ms with
  | nil => intro db hist _; rfl
  | cons m rest ih =>
    intro db hist h
    have hany : db.messages.any (fun x => x.chatraMessageId == some m.id) = true := by
      have hp := h m (List.mem_cons_self m rest)
      unfold msgCount at hp
      exact (count_pos_iff_any _ _).mp hp
    unfold processMessages
    simp only [hany, if_true]
    exact ih db hist (fun m' hm' => h m' (List.mem_cons_of_mem _ hm'))

/-- Fresh pass: on a payload whose (distinct) message ids are all new,
the loop inserts exactly one message per payload id and leaves every
other external id count unchanged. -/
theorem processMessages_fresh (llm : String → List String → Except String LLMResponse)
    (now : Nat) (conv : Conversation) :
    ∀ (ms : List PayloadMessage) (db : DB) (hist : List Message),
      (ms.map (fun m => m.id)).Nodup →
      (∀ m ∈ ms, msgCount db m.id = 0) →
      (∀ m ∈ ms, msgCount (processMessages llm now conv db hist ms) m.id = 1)
    ∧ (∀ mid, (∀ m ∈ ms, m.id ≠ mid) →
        msgCount (processMessages llm now conv db hist ms) mid = msgCount db mid) := by
  intro ms
  induction ms with
  | nil =>
    intro db hist _ _
    exact ⟨by simp, fun mid _ => rfl⟩
  | cons m rest ih =>
    intro db hist hnd h0
    rw [List.map_cons, List.nodup_cons] at hnd
    obtain ⟨hnotin, hnd'⟩ := hnd
    have hm0 : msgCount db m.id = 0 := h0 m (List.mem_cons_self m rest)
    have hany : db.messages.any (fun x => x.chatraMessageId == some m.id) = false := by
      unfold msgCount at hm0
      exact count_zero_any_false _ _ hm0
    obtain ⟨db2, hist2, heq, hstep1, hstep2, -⟩ :=
      processMessages_cons_case llm now conv m rest db hist hany
    have h0' : ∀ m' ∈ rest, msgCount db2 m'.id = 0 := by
      intro m' hm'
      have hne : m'.id ≠ m.id := by
        intro hcon
        exact hnotin (hcon ▸ List.mem_map_of_mem _ hm')
      rw [hstep2 m'.id hne]
      exact h0 m' (List.mem_cons_of_mem _ hm')
    obtain ⟨ih1, ih2⟩ := ih db2 hist2 hnd' h0'
    rw [heq]
    constructor
    · intro m' hm'
      rcases List.mem_cons.mp hm' with hEq | hm'r
      · subst hEq
        have hrest : ∀ m'' ∈ rest, m''.id ≠ m'.id := by
          intro m'' hm'' hcon
          exact hnotin (hcon ▸ List.mem_map_of_mem _ hm'')
        rw [ih2 m'.id hrest, hstep1, hm0]
      · exact ih1 m' hm'r
    · intro mid hmid
      rw [ih2 mid (fun m'' hm'' => hmid m'' (List.mem_cons_of_mem _ hm''))]
      exact hstep2 mid (Ne.symm (hmid m (List.mem_cons_self m rest)))

/-- Fresh pass through `handleRealChatraMessages`: one message row per
new payload id; conversation counts unchanged. -/
theorem handleReal_fresh (llm : String → List String → Except String LLMResponse)
    (db : DB) (p : WebhookPayload) (t : Nat)
    (client : PayloadClient) (cid : String) (msgs : List PayloadMessage)
    (conv : Conversation)
    (hc : p.client = some client) (hcid : jstr client.chatId = some cid)
    (hm : p.messages = some msgs)
    (hfind : db.conversations.find? (fun c => c.chatraConversationId == cid) = some conv)
    (hnd : (msgs.map (fun m => m.id)).Nodup)
    (h0 : ∀ m ∈ msgs, msgCount db m.id = 0) :
    (∀ m ∈ msgs, msgCount (handleRealChatraMessages llm db p t) m.id = 1)
  ∧ (∀ cid2, convCount (handleRealChatraMessages llm db p t) cid2 = convCount db cid2) := by
  obtain ⟨hfr1, -⟩ := processMessages_fresh llm t conv msgs db
    ((sortDescOnKey (fun m : Message => m.createdAt)
      (db.messages.filter (fun m => m.conversationId == conv.id))).take 10) hnd h0
  have hconvs := processMessages_conversations llm t conv msgs db
    ((sortDescOnKey (fun m : Message => m.createdAt)
      (db.messages.filter (fun m => m.conversationId == conv.id))).take 10)
  constructor
  · intro m hm'
    simp only [handleRealChatraMessages, hc, hcid, hm, hfind]
    split
    · split
      · exact hfr1 m hm'
      · exact hfr1 m hm'
    · exact hfr1 m hm'
  · intro cid2
    simp only [handleRealChatraMessages, hc, hcid, hm, hfind]
    split
    · split
      · unfold convCount
        dsimp only
        rw [filter_length_map_eq _ _ (fun c => by split <;> rfl) _]
        rw [hconvs]
      · unfold convCount
        rw [hconvs]
    · unfold convCount
      rw [hconvs]

/-- Skip pass through `handleRealChatraMessages`: with every payload id
already present, both kinds of counts are unchanged. -/
theorem handleReal_skip (llm : String → List String → Except String LLMResponse)
    (db : DB) (p : WebhookPayload) (t : Nat)
    (client : PayloadClient) (cid : String) (msgs : List PayloadMessage)
    (conv : Conversation)
    (hc : p.client = some client) (hcid : jstr client.chatId = some cid)
    (hm : p.messages = some msgs)
    (hfind : db.conversations.find? (fun c => c.chatraConversationId == cid) = some conv)
    (hall : ∀ m ∈ msgs, 0 < msgCount db m.id) :
    (∀ mid, msgCount (handleRealChatraMessages llm db p t) mid = msgCount db mid)
  ∧ (∀ cid2, convCount (handleRealChatraMessages llm db p t) cid2 = convCount db cid2) := by
  have hskip := processMessages_skip llm t conv msgs db
    ((sortDescOnKey (fun m : Message => m.createdAt)
      (db.messages.filter (fun m => m.conversationId == conv.id))).take 10) hall
  constructor
  · intro mid
    simp only [handleRealChatraMessages, hc, hcid, hm, hfind, hskip]
    split
    · split
      · rfl
      · rfl
    · rfl
  · intro cid2
    simp only [handleRealChatraMessages, hc, hcid, hm, hfind, hskip]
    split
    · split
      · unfold convCount
        dsimp only
        rw [filter_length_map_eq _ _ (fun c => by split <;> rfl) _]
      · rfl
    · rfl

theorem ingest_eq_handle (llm : String → List String → Except String LLMResponse)
    (db : DB) (p : WebhookPayload) (acct t : Nat) (msgs : List PayloadMessage)
    (hm : p.messages = some msgs) (hlen : 0 < msgs.length) :
    ingestWebhook llm db p acct t =
      handleRealChatraMessages llm (processRealChatraWebhook db p acct t) p t := by
  simp only [ingestWebhook, hm]
  rw [if_pos hlen]

/-! ## Claim C1 -/

/-- Claim C1: ingestion is idempotent. Processing the same webhook
payload twice leaves exactly one Conversation row per external
conversation id and exactly one Message row per distinct external
message id: the conversation write is an upsert keyed by the external
id, and a message whose external message id already exists is skipped as
a no-op. (The two passes may run at different times and with different
reply-generation outcomes.) -/
theorem C1_idempotent_ingestion
    (llm llm2 : String → List String → Except String LLMResponse)
    (db : DB) (p : WebhookPayload) (acct t1 t2 : Nat)
    (client : PayloadClient) (cid : String) (msgs : List PayloadMessage)
    (hc : p.client = some client) (hcid : jstr client.chatId = some cid)
    (hm : p.messages = some msgs)
    (hnd : (msgs.map (fun m => m.id)).Nodup)
    (h0c : convCount db cid = 0)
    (h0m : ∀ m ∈ msgs, msgCount db m.id = 0) :
    convCount (ingestWebhook llm2 (ingestWebhook llm db p acct t1) p acct t2) cid = 1
  ∧ ∀ m ∈ msgs, msgCount (ingestWebhook llm2 (ingestWebhook llm db p acct t1) p acct t2)
      m.id = 1 := by
  -- Pass 1: the upsert creates the conversation …
  have habs : db.conversations.any (fun c => c.chatraConversationId == cid) = false := by
    unfold convCount at h0c
    exact count_zero_any_false _ _ h0c
  have hcA : convCount (processRealChatraWebhook db p acct t1) cid = 1 := by
    rw [processReal_create db p acct t1 client cid hc hcid habs, h0c]
  have hmA : ∀ m ∈ msgs, msgCount (processRealChatraWebhook db p acct t1) m.id = 0 := by
    intro m hm'
    rw [processReal_msgCount]
    exact h0m m hm'
  -- … is found by the message pass, which inserts each payload message once.
  obtain ⟨cA, hfA⟩ := convCount_pos_find? (processRealChatraWebhook db p acct t1) cid
    (by rw [hcA]; exact Nat.one_pos)
  cases msgs with
  | nil =>
    -- No messages: both passes are just the upsert.
    have hing1 : ingestWebhook llm db p acct t1 = processRealChatraWebhook db p acct t1 := by
      simp [ingestWebhook, hm]
    have hpres : (processRealChatraWebhook db p acct t1).conversations.any
        (fun c => c.chatraConversationId == cid) = true := by
      refine (count_pos_iff_any _ _).mp ?_
      unfold convCount at hcA
      rw [hcA]
      exact Nat.one_pos
    have hing2 : ingestWebhook llm2 (processRealChatraWebhook db p acct t1) p acct t2 =
        processRealChatraWebhook (processRealChatraWebhook db p acct t1) p acct t2 := by
      simp [ingestWebhook, hm]
    rw [hing1, hing2]
    refine ⟨?_, by simp⟩
    rw [processReal_update _ p acct t2 client cid hc hcid hpres cid]
    exact hcA
  | cons m0 rest =>
    have hlen : 0 < (m0 :: rest).length := by simp
    have hing1 := ingest_eq_handle llm db p acct t1 (m0 :: rest) hm hlen
    obtain ⟨h1m, h1c⟩ := handleReal_fresh llm (processRealChatraWebhook db p acct t1) p t1
      client cid (m0 :: rest) cA hc hcid hm hfA hnd hmA
    -- State after pass 1.
    have hdb1c : convCount (ingestWebhook llm db p acct t1) cid = 1 := by
      rw [hing1, h1c cid]
      exact hcA
    have hdb1m : ∀ m ∈ (m0 :: rest),
        msgCount (ingestWebhook llm db p acct t1) m.id = 1 := by
      intro m hm'
      rw [hing1]
      exact h1m m hm'
    -- Pass 2: the upsert updates in place …
    have hpres : (ingestWebhook llm db p acct t1).conversations.any
        (fun c => c.chatraConversationId == cid) = true := by
      refine (count_pos_iff_any _ _).mp ?_
      unfold convCount at hdb1c
      rw [hdb1c]
      exact Nat.one_pos
    have hcB : convCount (processRealChatraWebhook (ingestWebhook llm db p acct t1)
        p acct t2) cid = 1 := by
      rw [processReal_update _ p acct t2 client cid hc hcid hpres cid]
      exact hdb1c
    have hmB : ∀ m ∈ (m0 :: rest), msgCount (processRealChatraWebhook
        (ingestWebhook llm db p acct t1) p acct t2) m.id = 1 := by
      intro m hm'
      rw [processReal_msgCount]
      exact hdb1m m hm'
    -- … and the message pass skips every message.
    obtain ⟨cB, hfB⟩ := convCount_pos_find?
      (processRealChatraWebhook (ingestWebhook llm db p acct t1) p acct t2) cid
      (by rw [hcB]; exact Nat.one_pos)
    obtain ⟨h2m, h2c⟩ := handleReal_skip llm2
      (processRealChatraWebhook (ingestWebhook llm db p acct t1) p acct t2) p t2
      client cid (m0 :: rest) cB hc hcid hm hfB
      (fun m hm' => by rw [hmB m hm']; exact Nat.one_pos)
    have hing2 := ingest_eq_handle llm2 (ingestWebhook llm db p acct t1) p acct t2
      (m0 :: rest) hm hlen
    rw [hing2]
    constructor
    · rw [h2c cid]
      exact hcB
    · intro m hm'
      rw [h2m m.id]
      exact hmB m hm'

/-- Concrete payload for the C1 witness. -/
def clientC1 : PayloadClient :=
  { chatId := some "c1", name := some "Ada", displayedName := none, email := none }

def payloadMsgC1 : PayloadMessage :=
  { id := "m1", text := some "Where is my order?", message := none, type := "client",
    createdAt := some 5, timestamp := none }

def payloadC1 : WebhookPayload :=
  { client := some clientC1, messages := some [payloadMsgC1] }

/-- A reply generator whose model call fails (the route logs and
continues). -/
def llmErr : String → List String → Except String LLMResponse := fun _ _ => .error "down"

theorem C1_witness :
    convCount (ingestWebhook llmErr (ingestWebhook llmErr dbEmptyW payloadC1 1 5)
      payloadC1 1 6) "c1" = 1
  ∧ ∀ m ∈ [payloadMsgC1], msgCount (ingestWebhook llmErr
      (ingestWebhook llmErr dbEmptyW payloadC1 1 5) payloadC1 1 6) m.id = 1 :=
  C1_idempotent_ingestion llmErr llmErr dbEmptyW payloadC1 1 5 6 clientC1 "c1"
    [payloadMsgC1] rfl rfl rfl (by decide) rfl (by decide)

end AiChatHub
